import Mathlib

/-!
Verification of the MCP23017 controller/peripheral cores.

This file is a shallow embedding of the Rust sources:
- `common/src/lib.rs` : pin/bank identities and the register address codec;
- `controller/src/lib.rs`, `controller/src/input.rs`, `controller/src/util.rs`,
  `controller/src/register.rs` : the runner's batched writes, the interrupt
  servicing transaction and the per-pin bit extraction;
- `peripheral/src/mcp23017.rs` : the emulated register file, its write/read
  side effects, the address pointer advancement and the interrupt outputs.

Machine integers (`u8`, `usize`) are modelled as `Nat`; `% 256` appears
exactly where u8 wrapping matters.  Rust code that panics (`todo!`,
`unreachable!`) is modelled by `Option`, with `none` standing for a panic.
The identifier `Gpio` stands for the source's GPIO register kind.
-/

set_option maxRecDepth 8000

/-- There are 8 GPIO pins for set A and set B (`N_GPIO_PINS_PER_SET`). -/
def N_GPIO_PINS_PER_SET : Nat := 8

/-- `N_TOTAL_GPIO_PINS = N_GPIO_PINS_PER_SET * AB::COUNT`. -/
def N_TOTAL_GPIO_PINS : Nat := N_GPIO_PINS_PER_SET * 2

/-- The two banks of the expander (`enum AB` in `common/src/lib.rs`). -/
inductive AB where
  | A
  | B
deriving DecidableEq

/-- `AB::set_index` from `common/src/lib.rs`. -/
def AB.set_index : AB → Nat
  | .A => 0
  | .B => 1

/-- `AB::from_index` from `common/src/lib.rs`.  The source matches on
`index / N_GPIO_PINS_PER_SET` with arms `0`, `1` and `_ => unreachable!()`;
the `unreachable!()` panic is modelled as `none`. -/
def AB.from_index (index : Nat) : Option AB :=
  if index / N_GPIO_PINS_PER_SET = 0 then some .A
  else if index / N_GPIO_PINS_PER_SET = 1 then some .B
  else none

/-- `AB::starting_index` from `common/src/lib.rs`. -/
def AB.starting_index (ab : AB) : Nat := ab.set_index * N_GPIO_PINS_PER_SET

/-- The eleven register kinds (`enum RegisterType` in `common/src/lib.rs`,
`repr(u8)` discriminants 0..10).  `Gpio` is the source's GPIO kind. -/
inductive RegisterType where
  | IODIR
  | IPOL
  | GPINTEN
  | DEFVAL
  | INTCON
  | IOCON
  | GPPU
  | INTF
  | INTCAP
  | Gpio
  | OLAT
deriving DecidableEq

/-- The `repr(u8)` discriminant of a register kind (`self._type as u8`). -/
def RegisterType.toRepr : RegisterType → Nat
  | .IODIR => 0
  | .IPOL => 1
  | .GPINTEN => 2
  | .DEFVAL => 3
  | .INTCON => 4
  | .IOCON => 5
  | .GPPU => 6
  | .INTF => 7
  | .INTCAP => 8
  | .Gpio => 9
  | .OLAT => 10

/-- `RegisterType::COUNT` (strum `EnumCount`). -/
def RegisterType.count : Nat := 11

/-- `RegisterType::from_repr` (strum `FromRepr`): inverse of the
discriminant, `none` for values outside 0..10. -/
def RegisterType.from_repr : Nat → Option RegisterType
  | 0 => some .IODIR
  | 1 => some .IPOL
  | 2 => some .GPINTEN
  | 3 => some .DEFVAL
  | 4 => some .INTCON
  | 5 => some .IOCON
  | 6 => some .GPPU
  | 7 => some .INTF
  | 8 => some .INTCAP
  | 9 => some .Gpio
  | 10 => some .OLAT
  | _ => none

/-- `struct Register` from `common/src/lib.rs`. -/
structure Register where
  _type : RegisterType
  ab : AB
deriving DecidableEq

/-- `Register::from_address` from `common/src/lib.rs`.  In bank mode the
address is split at `RegisterType::COUNT`; otherwise the parity selects the
bank and the half selects the kind.  The `?` propagation of `from_repr`
is `Option.map`. -/
def Register.from_address (address : Nat) (bank_mode : Bool) : Option Register :=
  if bank_mode then
    if address < RegisterType.count then
      (RegisterType.from_repr address).map fun t => ⟨t, .A⟩
    else
      (RegisterType.from_repr (address - RegisterType.count)).map fun t => ⟨t, .B⟩
  else
    (RegisterType.from_repr (address / 2)).map
      fun t => ⟨t, if address % 2 = 0 then .A else .B⟩

/-- `Register::address` from `common/src/lib.rs`.  Note the bank-mode branch
uses `self.ab.starting_index()` (8 per set) rather than
`RegisterType::COUNT` (11 per set). -/
def Register.address (r : Register) (bank_mode : Bool) : Nat :=
  if bank_mode then r.ab.starting_index + r._type.toRepr
  else r._type.toRepr * 2 + r.ab.set_index

/-- The three pointer advancement modes (`enum AdvanceAddressMode` in
`peripheral/src/mcp23017.rs`). -/
inductive AdvanceAddressMode where
  | Fixed
  | Toggle
  | Cycle
deriving DecidableEq

/-- `advance_address` from `peripheral/src/mcp23017.rs`.  Addresses are u8;
the `% 256` on the Cycle increment models u8 wrapping at 255. -/
def advance_address (current_address : Nat) (mode : AdvanceAddressMode) : Nat :=
  match mode with
  | .Fixed => current_address
  | .Toggle =>
    if current_address % 2 = 0 then current_address + 1 else current_address - 1
  | .Cycle =>
    if current_address = RegisterType.count * 2 - 1 then 0
    else (current_address + 1) % 256

/-- The pin of bank `ab` at offset `i` within the bank: index `8·set + i`
(the `ab.range()` slice of a 16-element array in the sources). -/
def pinIdx (ab : AB) (i : Fin 8) : Fin 16 :=
  ⟨ab.starting_index + i.val, by
    cases ab <;> simp [AB.starting_index, AB.set_index, N_GPIO_PINS_PER_SET] <;> omega⟩

/-- `u8::from_bits_le` from `controller/src/util.rs`: fold
`acc | ((b as u8) << i)` over the 8 bits. -/
def u8_from_bits_le (bits : Fin 8 → Bool) : Nat :=
  (List.finRange 8).foldl (fun acc i => acc ||| (if bits i then 1 <<< i.val else 0)) 0

/-- Equality of the `ab.range()` slices of two 16-element bit arrays. -/
def sliceEq (current new : Fin 16 → Bool) (ab : AB) : Bool :=
  decide (∀ i : Fin 8, current (pinIdx ab i) = new (pinIdx ab i))

/-- Equality of two whole 16-element bit arrays (`current != new` negated). -/
def arrEq (current new : Fin 16 → Bool) : Bool :=
  decide (∀ i : Fin 16, current i = new i)

/-- The byte packed from the `ab.range()` slice of a bit array
(`u8::from_bits_le(array::from_fn(|i| new[ab.range()][i].into()))`). -/
def sliceByte (v : Fin 16 → Bool) (ab : AB) : Nat :=
  u8_from_bits_le fun i => v (pinIdx ab i)

/-- `write_operation` from `controller/src/lib.rs` (runner main loop): `none`
when the intended values equal the cache; otherwise one bus-write buffer
holding the BANK=0 address of the first modified bank followed by the new
byte of each modified bank, in A-then-B order. -/
def write_operation (register : RegisterType) (current new : Fin 16 → Bool) :
    Option (List Nat) :=
  if arrEq current new then none
  else
    let modified_a := !(sliceEq current new .A)
    let modified_b := !(sliceEq current new .B)
    some (Register.address ⟨register, if modified_a then .A else .B⟩ false ::
      ((if modified_a then [sliceByte new .A] else []) ++
        (if modified_b then [sliceByte new .B] else [])))

/-- One I2C operation inside a transaction (`embedded_hal::i2c::Operation`):
a write of concrete bytes or a read of a given length. -/
inductive I2cOp where
  | write (bytes : List Nat)
  | read (len : Nat)
deriving DecidableEq

/-- Whether any pin of bank `ab` has `int_enabled` set
(`registers[ab.range()].iter().any(|r| r.int_enabled)`). -/
def anyIntEnabled (en : Fin 16 → Bool) (ab : AB) : Bool :=
  decide (∃ i : Fin 8, en (pinIdx ab i) = true)

/-- The interrupt-servicing I2C transaction built by the runner in
`controller/src/lib.rs` (`Mcp23017::run`): a pointer write selecting INTF of
the first serviced bank, a read of one byte per serviced bank, a pointer
write selecting GPIO (the source reads GPIO here, with the comment that the
captured value is not used), and a second read of one byte per serviced
bank.  A bank is serviced when one of its pins has `int_enabled`, or both
banks are when no pin does. -/
def interruptServiceOps (en : Fin 16 → Bool) : List I2cOp :=
  let no_interrupts_enabled := !(decide (∃ i : Fin 16, en i = true))
  let include_a := anyIntEnabled en .A || no_interrupts_enabled
  let include_b := anyIntEnabled en .B || no_interrupts_enabled
  let n := (if include_a then 1 else 0) + (if include_b then 1 else 0)
  let ab := if include_a then AB.A else AB.B
  [I2cOp.write [Register.address ⟨.INTF, ab⟩ false],
    I2cOp.read n,
    I2cOp.write [Register.address ⟨.Gpio, ab⟩ false],
    I2cOp.read n]

/-- Modelled from the spec (for comparison with `interruptServiceOps`): the
transaction the specification describes, whose second pointer write selects
INTCAP of the serviced bank(s) instead of GPIO. -/
def claimedInterruptServiceOps (en : Fin 16 → Bool) : List I2cOp :=
  let no_interrupts_enabled := !(decide (∃ i : Fin 16, en i = true))
  let include_a := anyIntEnabled en .A || no_interrupts_enabled
  let include_b := anyIntEnabled en .B || no_interrupts_enabled
  let n := (if include_a then 1 else 0) + (if include_b then 1 else 0)
  let ab := if include_a then AB.A else AB.B
  [I2cOp.write [Register.address ⟨.INTF, ab⟩ false],
    I2cOp.read n,
    I2cOp.write [Register.address ⟨.INTCAP, ab⟩ false],
    I2cOp.read n]

/-- A logic level on a pin (`embedded_hal::digital::PinState`). -/
inductive PinState where
  | Low
  | High
deriving DecidableEq

/-- `PinState: From<bool>`: `true` is `High`. -/
def PinState.ofBool (b : Bool) : PinState := if b then .High else .Low

/-- `bool: From<PinState>`. -/
def PinState.toBool : PinState → Bool
  | .Low => false
  | .High => true

/-- `Not` for `PinState` (the `!` used on `int_active_state`). -/
def PinState.invert : PinState → PinState
  | .Low => .High
  | .High => .Low

/-- The pin state `Input::new` in `controller/src/input.rs` records from the
one-byte GPIO read: `(byte & (1 << index / N_GPIO_PINS_PER_SET) != 0).into()`
(the source divides the pin index by 8 where the bit position is meant). -/
def inputNewPinState (index byte : Nat) : PinState :=
  PinState.ofBool (byte &&& (1 <<< (index / N_GPIO_PINS_PER_SET)) != 0)

/-- `self_pin_index_within_byte` from
`Input::collect_captured_interrupts` in `controller/src/input.rs`:
`self.index / N_GPIO_PINS_PER_SET`. -/
def self_pin_index_within_byte (index : Nat) : Nat :=
  index / N_GPIO_PINS_PER_SET

/-- `enum IoDirection` from `common/src/lib.rs`. -/
inductive IoDirection where
  | Output
  | Input
deriving DecidableEq

/-- `IoDirection: From<bool>`: `true` is `Input`. -/
def IoDirection.ofBool (b : Bool) : IoDirection := if b then .Input else .Output

/-- `bool: From<IoDirection>`. -/
def IoDirection.toBool : IoDirection → Bool
  | .Output => false
  | .Input => true

/-- `enum InterruptControl` from `common/src/lib.rs`. -/
inductive InterruptControl where
  | CompareWithConfiguredValue
  | CompareWithPreviousValue
deriving DecidableEq

/-- `InterruptControl: From<bool>`: `true` compares with DEFVAL. -/
def InterruptControl.ofBool (b : Bool) : InterruptControl :=
  if b then .CompareWithConfiguredValue else .CompareWithPreviousValue

/-- `enum InterruptMode` (`peripheral/src/lib.rs`). -/
inductive InterruptMode where
  | OpenDrain
  | ActiveDriver
deriving DecidableEq

/-- `InterruptMode: From<bool>`: `true` is open drain. -/
def InterruptMode.ofBool (b : Bool) : InterruptMode :=
  if b then .OpenDrain else .ActiveDriver

/-- Whether pin `j` lies in `ab.range()` (`8·set .. 8·set+8`). -/
def inR (ab : AB) (j : Fin 16) : Bool :=
  decide (ab.starting_index ≤ j.val ∧ j.val < ab.starting_index + N_GPIO_PINS_PER_SET)

/-- The register file of the emulated MCP23017 (`struct Mcp23017` in
`peripheral/src/mcp23017.rs`, minus the pin adapters, which are passed to
the operations that consult them as a `levels` function). -/
structure Mcp23017State where
  bank_mode : Bool
  mirror_interrupts : Bool
  sequential_mode : Bool
  int_mode : InterruptMode
  int_active_state : PinState
  selected_address : Nat
  io_directions : Fin 16 → IoDirection
  pull_up_enabled : Fin 16 → Bool
  output_latches : Fin 16 → PinState
  gpio_inverted : Fin 16 → Bool
  int_enabled : Fin 16 → Bool
  int_compare : Fin 16 → PinState
  interrupt_control : Fin 16 → InterruptControl
  int_flags : Fin 16 → Bool
  int_captured_value : Fin 16 → PinState
  known_input_states : Fin 16 → PinState

/-- `Mcp23017::new` / `Mcp23017::reset`: the datasheet reset defaults. -/
def resetState : Mcp23017State where
  bank_mode := false
  mirror_interrupts := false
  sequential_mode := false
  int_mode := .ActiveDriver
  int_active_state := .Low
  selected_address := 0
  io_directions := fun _ => .Input
  pull_up_enabled := fun _ => false
  output_latches := fun _ => .Low
  gpio_inverted := fun _ => false
  int_enabled := fun _ => false
  int_compare := fun _ => .Low
  interrupt_control := fun _ => .CompareWithPreviousValue
  int_flags := fun _ => false
  int_captured_value := fun _ => .Low
  known_input_states := fun _ => .Low

/-- Overwrite the `ab.range()` slice of a per-pin array with the bits of
`value`, converted by `conv` (the per-kind write loops of `write_register`:
`*x = ((value & (1 << index)) != 0).into()` over `register.ab.range()`). -/
def updRange (conv : Bool → α) (f : Fin 16 → α) (ab : AB) (value : Nat) :
    Fin 16 → α :=
  fun j =>
    if inR ab j then conv (value.testBit (j.val - ab.starting_index)) else f j

/-- `Mcp23017::write_register` from `peripheral/src/mcp23017.rs`: decompose
the byte into bits over `register.ab.range()`.  GPIO writes go to the output
latches exactly like OLAT.  The INTF and INTCAP arms of the source are
`todo!()` and panic, modelled as `none`.  (The adapter reconfiguration the
source performs for changed pins does not touch the register file.) -/
def write_register (r : Register) (value : Nat) (s : Mcp23017State) :
    Option Mcp23017State :=
  match r._type with
  | .IODIR =>
    some { s with io_directions := updRange IoDirection.ofBool s.io_directions r.ab value }
  | .GPPU =>
    some { s with pull_up_enabled := updRange id s.pull_up_enabled r.ab value }
  | .OLAT | .Gpio =>
    some { s with output_latches := updRange PinState.ofBool s.output_latches r.ab value }
  | .IPOL =>
    some { s with gpio_inverted := updRange id s.gpio_inverted r.ab value }
  | .GPINTEN =>
    some { s with int_enabled := updRange id s.int_enabled r.ab value }
  | .DEFVAL =>
    some { s with int_compare := updRange PinState.ofBool s.int_compare r.ab value }
  | .INTCON =>
    some { s with interrupt_control := updRange InterruptControl.ofBool s.interrupt_control r.ab value }
  | .IOCON =>
    some { s with
      bank_mode := value.testBit 7
      mirror_interrupts := value.testBit 6
      sequential_mode := value.testBit 5
      int_mode := InterruptMode.ofBool (value.testBit 2)
      int_active_state := PinState.ofBool (value.testBit 1) }
  | .INTF => none
  | .INTCAP => none

/-- Pack the `ab.range()` slice of a bit predicate into a byte
(`value |= u8::from(bit) << i` in the read arms of `read_register`). -/
def byteOf (bit : Fin 16 → Bool) (ab : AB) : Nat :=
  (List.finRange 8).foldl
    (fun acc i => acc ||| (if bit (pinIdx ab i) then 1 <<< i.val else 0)) 0

/-- `Mcp23017::read_register` from `peripheral/src/mcp23017.rs`.  GPIO reads
the output latch for output pins and the adapter level (`levels`) for input
pins.  The arms for IPOL, GPINTEN, DEFVAL, INTCON, IOCON and OLAT are
`todo!()` in the source and panic, modelled as `none`. -/
def read_register (r : Register) (levels : Fin 16 → PinState) (s : Mcp23017State) :
    Option Nat :=
  match r._type with
  | .IODIR => some (byteOf (fun j => (s.io_directions j).toBool) r.ab)
  | .GPPU => some (byteOf s.pull_up_enabled r.ab)
  | .Gpio => some (byteOf (fun j =>
      (match s.io_directions j with
        | .Output => s.output_latches j
        | .Input => levels j).toBool) r.ab)
  | .INTCAP => some (byteOf (fun j => (s.int_captured_value j).toBool) r.ab)
  | .INTF => some (byteOf s.int_flags r.ab)
  | _ => none

/-- `self.int_flags[register.ab.range()].fill(false)`: clear the INTF slice
of one bank. -/
def clearFlagsIn (f : Fin 16 → Bool) (ab : AB) : Fin 16 → Bool :=
  fun j => if inR ab j then false else f j

/-- The `known_input_states` refresh a GPIO read performs over its bank:
the output latch for output pins, the adapter level for input pins. -/
def refreshKnown (s : Mcp23017State) (levels : Fin 16 → PinState) (ab : AB) :
    Fin 16 → PinState :=
  fun j =>
    if inR ab j then
      match s.io_directions j with
      | .Output => s.output_latches j
      | .Input => levels j
    else s.known_input_states j

/-- `Mcp23017::read_side_effects` from `peripheral/src/mcp23017.rs`: a GPIO
read refreshes `known_input_states` for the bank and clears its INTF bits;
an INTCAP read clears the bank's INTF bits; other registers have none. -/
def read_side_effects (r : Register) (levels : Fin 16 → PinState)
    (s : Mcp23017State) : Mcp23017State :=
  match r._type with
  | .Gpio =>
    { s with
      known_input_states := refreshKnown s levels r.ab
      int_flags := clearFlagsIn s.int_flags r.ab }
  | .INTCAP =>
    { s with int_flags := clearFlagsIn s.int_flags r.ab }
  | _ => s

/-- `Mcp23017::advance_address_mode`: Cycle when SEQOP, else Toggle in
BANK=0 and Fixed in BANK=1. -/
def advance_address_mode (s : Mcp23017State) : AdvanceAddressMode :=
  if s.sequential_mode then .Cycle
  else if !s.bank_mode then .Toggle
  else .Fixed

/-- `Mcp23017::advance_address`: step the selected address pointer. -/
def advanceState (s : Mcp23017State) : Mcp23017State :=
  { s with selected_address := advance_address s.selected_address (advance_address_mode s) }

/-- `Mcp23017::process_write_transaction` from `peripheral/src/mcp23017.rs`:
the first byte becomes the selected address; each later byte is written to
the register at the current pointer when the address decodes (a panic inside
`write_register` propagates as `none`), is a logged no-op when it does not,
and the pointer advances either way. -/
def process_write_transaction (bytes : List Nat) (s : Mcp23017State) :
    Option Mcp23017State :=
  match bytes with
  | [] => some s
  | address :: rest =>
    rest.foldl
      (fun acc byte => acc.bind fun st =>
        match Register.from_address st.selected_address st.bank_mode with
        | some r => (write_register r byte st).map advanceState
        | none => some (advanceState st))
      (some { s with selected_address := address })

/-- `Mcp23017::confirm_bytes_read` from `peripheral/src/mcp23017.rs`: per
confirmed byte, apply the read side effects of the register at the pointer
(if it decodes) and advance the pointer. -/
def confirm_bytes_read (bytes_read : Nat) (levels : Fin 16 → PinState)
    (s : Mcp23017State) : Mcp23017State :=
  match bytes_read with
  | 0 => s
  | n + 1 =>
    let s1 :=
      match Register.from_address s.selected_address s.bank_mode with
      | some r => read_side_effects r levels s
      | none => s
    confirm_bytes_read n levels (advanceState s1)

/-- `Mcp23017::update_interrupts` from `peripheral/src/mcp23017.rs`, as the
pair of `(mode, level)` configurations it pushes to the two interrupt output
pins: a bank's output is enabled when its INTF slice contains a set bit;
with MIRROR, any set bit enables both; an enabled output is driven at
`int_active_state`, a disabled one at its complement. -/
def intPinTargets (s : Mcp23017State) :
    (InterruptMode × PinState) × (InterruptMode × PinState) :=
  let enable_a := decide (∃ i : Fin 8, s.int_flags (pinIdx .A i) = true)
  let enable_b := decide (∃ i : Fin 8, s.int_flags (pinIdx .B i) = true)
  let fill := s.mirror_interrupts && (enable_a || enable_b)
  let drive_a := enable_a || fill
  let drive_b := enable_b || fill
  ((s.int_mode, if drive_a then s.int_active_state else s.int_active_state.invert),
    (s.int_mode, if drive_b then s.int_active_state else s.int_active_state.invert))

/-- Concrete state for the C8 witness: pointer at 0x12 (GPIO A, BANK=0) and
a set INTF bit on pin 12 in bank B. -/
def c8WitnessState : Mcp23017State :=
  { resetState with
    selected_address := 18
    int_flags := fun j => decide (j.val = 12) }

/-- Concrete state for the C9 witness: MIRROR on and INTF set for pin 3. -/
def c9WitnessState : Mcp23017State :=
  { resetState with
    mirror_interrupts := true
    int_flags := fun j => decide (j.val = 3) }

/-- Claim C1 (code bug witness): encoding `(IODIR, B)` in BANK=1 mode gives
address 8 (`starting_index` = 8·set), but `from_address` decodes bank-1
addresses with an offset of `RegisterType::COUNT` = 11, so 8 decodes back to
`(INTCAP, A)`, not `(IODIR, B)`: the encoder and decoder disagree in BANK=1
mode and the round trip of the claim fails. -/
theorem register_address_bank1_roundtrip_fails :
    Register.address ⟨.IODIR, .B⟩ true = 8 ∧
      Register.from_address (Register.address ⟨.IODIR, .B⟩ true) true =
        some ⟨.INTCAP, .A⟩ := by
  constructor
  · rfl
  · rfl

/-- Claim C6 counterexample: starting from address 22 (a valid u8 value the
controller can select), 22 Cycle advances land on 44, not back on 22 — the
Cycle wrap happens only at address 21, so pointers above 21 never rejoin the
0..21 cycle within 22 steps. -/
theorem advance_address_cycle22_fails_at_22 :
    (fun a => advance_address a .Cycle)^[22] 22 = 44 ∧ (44 : Nat) ≠ 22 := by
  constructor
  · decide
  · decide

/-- Claim C6 (amended): for every address below 22 (= `RegisterType::COUNT * 2`),
22 advances in Cycle mode return the original address, and for every u8
address two advances in Toggle mode are the identity.  (For addresses 22..255
the Cycle advance keeps incrementing mod 256 instead of wrapping at 21.) -/
theorem advance_address_cycle_toggle_identity :
    (∀ a, a < 22 → (fun x => advance_address x .Cycle)^[22] a = a) ∧
      (∀ a, a < 256 → advance_address (advance_address a .Toggle) .Toggle = a) := by
  constructor
  · decide
  · decide

/-- Claim C6 amended-theorem witness at addresses 3 (Cycle) and 7 (Toggle). -/
theorem advance_address_cycle_toggle_identity_witness :
    (3 < 22 ∧ (fun x => advance_address x .Cycle)^[22] 3 = 3) ∧
      (7 < 256 ∧ advance_address (advance_address 7 .Toggle) .Toggle = 7) :=
  ⟨⟨by decide, advance_address_cycle_toggle_identity.1 3 (by decide)⟩,
    ⟨by decide, advance_address_cycle_toggle_identity.2 7 (by decide)⟩⟩

/-- Claim C10: `AB::from_index` is partial — indices 0..7 map to bank A,
8..15 to bank B, and any index at or above 16 hits `unreachable!()`
(modelled as `none`). -/
theorem ab_from_index_cases (index : Nat) :
    (index < 8 → AB.from_index index = some AB.A) ∧
      (8 ≤ index → index < 16 → AB.from_index index = some AB.B) ∧
      (16 ≤ index → AB.from_index index = none) := by
  refine ⟨fun h => ?_, fun h8 h16 => ?_, fun h => ?_⟩
  · have hd : index / N_GPIO_PINS_PER_SET = 0 := by
      simp only [N_GPIO_PINS_PER_SET]; omega
    simp [AB.from_index, hd]
  · have hd : index / N_GPIO_PINS_PER_SET = 1 := by
      simp only [N_GPIO_PINS_PER_SET]; omega
    simp [AB.from_index, hd]
  · have hd0 : ¬(index / N_GPIO_PINS_PER_SET = 0) := by
      simp only [N_GPIO_PINS_PER_SET]; omega
    have hd1 : ¬(index / N_GPIO_PINS_PER_SET = 1) := by
      simp only [N_GPIO_PINS_PER_SET]; omega
    simp [AB.from_index, hd0, hd1]

/-- Claim C10 witness at indices 5, 10 and 20. -/
theorem ab_from_index_cases_witness :
    (5 < 8 ∧ AB.from_index 5 = some AB.A) ∧
      (8 ≤ 10 ∧ 10 < 16 ∧ AB.from_index 10 = some AB.B) ∧
      (16 ≤ 20 ∧ AB.from_index 20 = none) :=
  ⟨⟨by decide, (ab_from_index_cases 5).1 (by decide)⟩,
    ⟨by decide, by decide, (ab_from_index_cases 10).2.1 (by decide) (by decide)⟩,
    ⟨by decide, (ab_from_index_cases 20).2.2 (by decide)⟩⟩

/-- Splitting a property over all 16 pins into its bank-A and bank-B parts. -/
theorem forall_pin_split (P : Fin 16 → Prop) :
    (∀ i, P i) ↔ (∀ i : Fin 8, P (pinIdx .A i)) ∧ (∀ i : Fin 8, P (pinIdx .B i)) := by
  constructor
  · exact fun h => ⟨fun i => h _, fun i => h _⟩
  · rintro ⟨hA, hB⟩ i
    by_cases h8 : i.val < 8
    · have e : pinIdx .A ⟨i.val, h8⟩ = i := by
        apply Fin.ext
        simp [pinIdx, AB.starting_index, AB.set_index, N_GPIO_PINS_PER_SET]
      exact e ▸ hA ⟨i.val, h8⟩
    · have h16 := i.isLt
      have hlt : i.val - 8 < 8 := by omega
      have e : pinIdx .B ⟨i.val - 8, hlt⟩ = i := by
        apply Fin.ext
        simp only [pinIdx, AB.starting_index, AB.set_index, N_GPIO_PINS_PER_SET]
        omega
      exact e ▸ hB ⟨i.val - 8, hlt⟩

/-- A pin witnessing a property exists among the 16 pins iff one exists in
bank A or in bank B. -/
theorem exists_pin_split (P : Fin 16 → Prop) :
    (∃ i, P i) ↔ (∃ i : Fin 8, P (pinIdx .A i)) ∨ (∃ i : Fin 8, P (pinIdx .B i)) := by
  constructor
  · rintro ⟨i, hi⟩
    by_cases h8 : i.val < 8
    · left
      have e : pinIdx .A ⟨i.val, h8⟩ = i := by
        apply Fin.ext
        simp [pinIdx, AB.starting_index, AB.set_index, N_GPIO_PINS_PER_SET]
      refine ⟨⟨i.val, h8⟩, ?_⟩
      rw [e]
      exact hi
    · right
      have h16 := i.isLt
      have hlt : i.val - 8 < 8 := by omega
      have e : pinIdx .B ⟨i.val - 8, hlt⟩ = i := by
        apply Fin.ext
        simp only [pinIdx, AB.starting_index, AB.set_index, N_GPIO_PINS_PER_SET]
        omega
      refine ⟨⟨i.val - 8, hlt⟩, ?_⟩
      rw [e]
      exact hi
  · rintro (⟨i, hi⟩ | ⟨i, hi⟩) <;> exact ⟨_, hi⟩

/-- Whole-array equality is the conjunction of the two per-bank slice
equalities. -/
theorem arrEq_eq_slices (current new : Fin 16 → Bool) :
    arrEq current new = (sliceEq current new .A && sliceEq current new .B) := by
  have h := forall_pin_split fun i => current i = new i
  simp [arrEq, sliceEq, h]

/-- Claim C7: for each register kind whose intended values differ from the
cache, the runner's `write_operation` yields exactly one bus write: payload
`[base_addr, valueA, valueB]` when both banks changed, `[addr, value]` when
one did, and no operation at all when neither did — never two per-bank
writes for one kind. -/
theorem write_operation_single_write (register : RegisterType)
    (current new : Fin 16 → Bool) :
    (sliceEq current new .A = false → sliceEq current new .B = false →
      write_operation register current new =
        some [Register.address ⟨register, .A⟩ false,
          sliceByte new .A, sliceByte new .B]) ∧
    (sliceEq current new .A = false → sliceEq current new .B = true →
      write_operation register current new =
        some [Register.address ⟨register, .A⟩ false, sliceByte new .A]) ∧
    (sliceEq current new .A = true → sliceEq current new .B = false →
      write_operation register current new =
        some [Register.address ⟨register, .B⟩ false, sliceByte new .B]) ∧
    (sliceEq current new .A = true → sliceEq current new .B = true →
      write_operation register current new = none) := by
  have harr := arrEq_eq_slices current new
  refine ⟨fun hA hB => ?_, fun hA hB => ?_, fun hA hB => ?_, fun hA hB => ?_⟩ <;>
    simp [write_operation, harr, hA, hB]

/-- Claim C7 witness: only bank B changes (pin 9 set), giving the single
write `[OLAT B address, new B byte]`. -/
theorem write_operation_single_write_witness :
    sliceEq (fun _ => false) (fun i => decide (i.val = 9)) .A = true ∧
      sliceEq (fun _ => false) (fun i => decide (i.val = 9)) .B = false ∧
      write_operation .OLAT (fun _ => false) (fun i => decide (i.val = 9)) =
        some [Register.address ⟨.OLAT, .B⟩ false,
          sliceByte (fun i => decide (i.val = 9)) .B] :=
  ⟨by decide, by decide,
    (write_operation_single_write .OLAT _ _).2.2.1 (by decide) (by decide)⟩

/-- Claim C2 counterexample: with only pin 0 interrupt-enabled, the runner's
interrupt-servicing transaction differs from the one the claim describes —
its third operation is a pointer write selecting GPIO (address 0x12), not
INTCAP (address 0x10). -/
theorem interrupt_service_third_op_not_intcap :
    interruptServiceOps (fun i => decide (i.val = 0)) ≠
      claimedInterruptServiceOps (fun i => decide (i.val = 0)) := by
  decide

/-- Claim C2 (amended): when the runner services an interrupt it issues a
single transaction: a pointer write selecting INTF of the bank(s) whose pins
have `int_enabled`, a read of one byte per such bank, a pointer write
selecting GPIO (not INTCAP) of the same bank(s), and a read of one byte per
such bank. -/
theorem interrupt_service_ops_shape (en : Fin 16 → Bool) :
    (anyIntEnabled en .A = true → anyIntEnabled en .B = true →
      interruptServiceOps en =
        [I2cOp.write [Register.address ⟨.INTF, .A⟩ false], I2cOp.read 2,
          I2cOp.write [Register.address ⟨.Gpio, .A⟩ false], I2cOp.read 2]) ∧
    (anyIntEnabled en .A = true → anyIntEnabled en .B = false →
      interruptServiceOps en =
        [I2cOp.write [Register.address ⟨.INTF, .A⟩ false], I2cOp.read 1,
          I2cOp.write [Register.address ⟨.Gpio, .A⟩ false], I2cOp.read 1]) ∧
    (anyIntEnabled en .A = false → anyIntEnabled en .B = true →
      interruptServiceOps en =
        [I2cOp.write [Register.address ⟨.INTF, .B⟩ false], I2cOp.read 1,
          I2cOp.write [Register.address ⟨.Gpio, .B⟩ false], I2cOp.read 1]) := by
  refine ⟨fun hA hB => ?_, fun hA hB => ?_, fun hA hB => ?_⟩
  · simp [interruptServiceOps, hA, hB]
  · have hA' : decide (∃ i : Fin 8, en (pinIdx .A i) = true) = true := hA
    have hex : decide (∃ i : Fin 16, en i = true) = true := by
      apply decide_eq_true
      exact (exists_pin_split fun i => en i = true).mpr
        (Or.inl (of_decide_eq_true hA'))
    simp [interruptServiceOps, hA, hB, hex]
  · have hB' : decide (∃ i : Fin 8, en (pinIdx .B i) = true) = true := hB
    have hex : decide (∃ i : Fin 16, en i = true) = true := by
      apply decide_eq_true
      exact (exists_pin_split fun i => en i = true).mpr
        (Or.inr (of_decide_eq_true hB'))
    simp [interruptServiceOps, hA, hB, hex]

/-- Claim C2 amended-theorem witness: only pin 2 (bank A) interrupt-enabled. -/
theorem interrupt_service_ops_shape_witness :
    anyIntEnabled (fun i => decide (i.val = 2)) .A = true ∧
      anyIntEnabled (fun i => decide (i.val = 2)) .B = false ∧
      interruptServiceOps (fun i => decide (i.val = 2)) =
        [I2cOp.write [Register.address ⟨.INTF, .A⟩ false], I2cOp.read 1,
          I2cOp.write [Register.address ⟨.Gpio, .A⟩ false], I2cOp.read 1] :=
  ⟨by decide, by decide,
    (interrupt_service_ops_shape _).2.1 (by decide) (by decide)⟩

/-- Claim C5 (code bug witness): for pin 10, `Input::new` extracts bit
`10 / 8 = 1` of the GPIO byte instead of bit `10 % 8 = 2`: on byte
`0b0000_0100` (pin 10 high) it records Low, while the bit the claim names
is set; `collect_captured_interrupts` commits the same division. -/
theorem input_pin_bit_extraction_divides :
    inputNewPinState 10 4 = PinState.Low ∧
      (4 &&& (1 <<< (10 % 8)) != 0) = true ∧
      self_pin_index_within_byte 10 = 1 ∧ 10 % 8 = 2 := by
  decide

/-- Claim C3 (code bug witness): writing OLAT A = 5 to a freshly reset
peripheral succeeds, but the immediately following read of OLAT A hits the
`todo!()` arm of `read_register` and panics (`none`) instead of returning 5 —
the write/read round trip does not even complete for OLAT (likewise IPOL,
GPINTEN, DEFVAL, INTCON, IOCON). -/
theorem write_then_read_olat_panics :
    (write_register ⟨.OLAT, .A⟩ 5 resetState).isSome = true ∧
      Option.bind (write_register ⟨.OLAT, .A⟩ 5 resetState)
        (fun s => read_register ⟨.OLAT, .A⟩ (fun _ => PinState.Low) s) = none :=
  ⟨rfl, rfl⟩

/-- Claim C4 (code bug witness): a write transaction addressed to the
read-only INTF A register (address 0x0E in BANK=0) reaches the `todo!()` arm
of `write_register` and panics (`none`) rather than being dropped with a
logged warning. -/
theorem write_transaction_to_intf_panics :
    process_write_transaction [14, 0] resetState = none ∧
      Register.from_address 14 false = some ⟨.INTF, .A⟩ :=
  ⟨rfl, rfl⟩

/-- Claim C8: when the address pointer decodes to GPIO or INTCAP of bank `X`,
confirming one read byte clears every INTF flag of bank `X` and leaves the
INTF flags of the other bank unchanged. -/
theorem confirm_read_clears_bank_flags (s : Mcp23017State)
    (levels : Fin 16 → PinState) (t : RegisterType) (X : AB)
    (ht : t = .Gpio ∨ t = .INTCAP)
    (hfrom : Register.from_address s.selected_address s.bank_mode = some ⟨t, X⟩) :
    (∀ j, inR X j = true →
      (confirm_bytes_read 1 levels s).int_flags j = false) ∧
      (∀ j, inR X j = false →
        (confirm_bytes_read 1 levels s).int_flags j = s.int_flags j) := by
  have h1 : confirm_bytes_read 1 levels s =
      advanceState (read_side_effects ⟨t, X⟩ levels s) := by
    simp [confirm_bytes_read, hfrom]
  rcases ht with h | h <;> subst h <;>
    exact ⟨fun j hj => by simp [h1, advanceState, read_side_effects, clearFlagsIn, hj],
      fun j hj => by simp [h1, advanceState, read_side_effects, clearFlagsIn, hj]⟩

/-- Claim C8 witness: pointer at GPIO A with a flag set in bank B; the
confirmed read clears bank A's flags and leaves bank B's flag alone. -/
theorem confirm_read_clears_bank_flags_witness :
    Register.from_address c8WitnessState.selected_address c8WitnessState.bank_mode =
        some ⟨.Gpio, .A⟩ ∧
      (∀ j, inR .A j = true →
        (confirm_bytes_read 1 (fun _ => PinState.Low) c8WitnessState).int_flags j = false) ∧
      (∀ j, inR .A j = false →
        (confirm_bytes_read 1 (fun _ => PinState.Low) c8WitnessState).int_flags j =
          c8WitnessState.int_flags j) :=
  ⟨rfl,
    (confirm_read_clears_bank_flags c8WitnessState (fun _ => PinState.Low) .Gpio .A
      (Or.inl rfl) rfl).1,
    (confirm_read_clears_bank_flags c8WitnessState (fun _ => PinState.Low) .Gpio .A
      (Or.inl rfl) rfl).2⟩

/-- Claim C9: with MIRROR=1, `update_interrupts` always hands the two
interrupt output pins identical configurations; both are driven at the
active state when some INTF bit of either bank is set and at its complement
when none is.  `intPinTargets` is a pure function of the register state, so
this covers every call of `update_interrupts`. -/
theorem mirror_drives_outputs_identically (s : Mcp23017State)
    (hm : s.mirror_interrupts = true) :
    (intPinTargets s).1 = (intPinTargets s).2 ∧
      ((∃ i : Fin 16, s.int_flags i = true) →
        (intPinTargets s).1 = (s.int_mode, s.int_active_state)) ∧
      ((¬ ∃ i : Fin 16, s.int_flags i = true) →
        (intPinTargets s).1 = (s.int_mode, s.int_active_state.invert)) := by
  have hsplit := exists_pin_split fun i => s.int_flags i = true
  cases heA : decide (∃ i : Fin 8, s.int_flags (pinIdx .A i) = true) <;>
    cases heB : decide (∃ i : Fin 8, s.int_flags (pinIdx .B i) = true)
  · refine ⟨by simp [intPinTargets, hm, heA, heB], fun hex => ?_,
      fun _ => by simp [intPinTargets, hm, heA, heB]⟩
    rcases hsplit.mp hex with h | h
    · exact absurd h (of_decide_eq_false heA)
    · exact absurd h (of_decide_eq_false heB)
  · refine ⟨by simp [intPinTargets, hm, heA, heB],
      fun _ => by simp [intPinTargets, hm, heA, heB], fun hne => ?_⟩
    obtain ⟨i, hi⟩ := of_decide_eq_true heB
    exact absurd ⟨_, hi⟩ hne
  · refine ⟨by simp [intPinTargets, hm, heA, heB],
      fun _ => by simp [intPinTargets, hm, heA, heB], fun hne => ?_⟩
    obtain ⟨i, hi⟩ := of_decide_eq_true heA
    exact absurd ⟨_, hi⟩ hne
  · refine ⟨by simp [intPinTargets, hm, heA, heB],
      fun _ => by simp [intPinTargets, hm, heA, heB], fun hne => ?_⟩
    obtain ⟨i, hi⟩ := of_decide_eq_true heA
    exact absurd ⟨_, hi⟩ hne

/-- Claim C9 witness: MIRROR on, INTF set only for pin 3 — both outputs get
the same configuration and are driven at the active state. -/
theorem mirror_drives_outputs_identically_witness :
    c9WitnessState.mirror_interrupts = true ∧
      (∃ i : Fin 16, c9WitnessState.int_flags i = true) ∧
      (intPinTargets c9WitnessState).1 = (intPinTargets c9WitnessState).2 ∧
      (intPinTargets c9WitnessState).1 =
        (c9WitnessState.int_mode, c9WitnessState.int_active_state) :=
  ⟨rfl, ⟨3, rfl⟩, (mirror_drives_outputs_identically c9WitnessState rfl).1,
    (mirror_drives_outputs_identically c9WitnessState rfl).2.1 ⟨3, rfl⟩⟩
